import Mathlib

/-!
# Shallow embedding of the `stepwise` repository (Stepper / StopClock)

This file embeds the two source components of the repository:

* `StopClock` (src/StopClock.js): a timer value recording a `start` instant and
  a list of stop events, with queries `time`, `timeSinceStart`,
  `timeSinceLastStop`, `findStop` and `summary`.
* `Stepper` (src/Stepper.js): the step-execution engine, with its `Step` and
  `Dataset` value factories, `reset`, `startSteppin` and the `results` query.

Modelling conventions:

* JavaScript `Date.now()` values are integers (`ℤ`).  Every operation of the
  source that reads the wall clock takes the instant(s) it would observe as an
  explicit argument; the engine's run loop threads an oracle `τ : ℕ → ℤ`
  together with a counter so that the k-th `Date.now()` call of the run
  observes `τ k`.
* JavaScript values that flow through the engine (context elements, guard
  results, thrown exceptions) live in a small universe `JSVal` with the
  JavaScript truthiness predicate.  `NaN` is not a member of the universe; the
  one place where the source produces `NaN` (`timeSinceLastStop` on an empty
  clock, a subtraction against a missing array element) is modelled by an
  `Option ℤ` result whose `none` stands for the non-numeric outcome.
* Exceptions of guard / work functions are modelled by `JSResult`; the engine
  itself returns plain values — its `try/catch` handles both constructors, so
  totality of `Stepper.startSteppin` is the formal counterpart of "`run` never
  raises due to step failures".
* Event emission (`EventEmitter`) is modelled by an output list of `RunEvent`
  values carrying the snapshot of the dataset at emission time; emission never
  throws (handler exceptions are the emitting subsystem's concern).
* Object identity / aliasing (e.g. that `results` hands back the internal
  array by reference) is not representable in this value-level embedding.
-/

/-- The universe of JavaScript values used by the engine: context elements,
guard results and thrown exceptions.  Arrays are included because the
constructor of the engine distinguishes arrays (`Array.isArray`). -/
inductive JSVal where
  | null
  | undef
  | bool (b : Bool)
  | num (n : ℤ)
  | str (s : String)
  | arr (l : List JSVal)

/-- JavaScript truthiness.  `null`, `undefined`, `false`, `0` and `""` are
falsy; every array (even `[]`) is truthy. -/
def JSVal.truthy : JSVal → Bool
  | .null => false
  | .undef => false
  | .bool b => b
  | .num n => n ≠ 0
  | .str s => s ≠ ""
  | .arr _ => true

/-- `Array.isArray` on the value universe. -/
def JSVal.isArray : JSVal → Bool
  | .arr _ => true
  | _ => false

/-- Outcome of calling a JavaScript function: a returned value, or a thrown
value (any `JSVal` may be thrown, including falsy ones). -/
inductive JSResult (α : Type) where
  | ok (v : α)
  | thrown (e : JSVal)

/-! ## StopClock (src/StopClock.js) -/

/-- One entry of a StopClock's `stops` array.  The source pushes
`Object(Date.now())` — the absolute timestamp — annotated with
`label || null`. -/
structure StopEvent where
  time : ℤ
  label : Option String
deriving DecidableEq, Repr

/-- The StopClock state: `start` (instant of creation or last `reset`) and the
ordered list of recorded stop events. -/
structure StopClock where
  start : ℤ
  stops : List StopEvent
deriving DecidableEq, Repr

namespace StopClock

/-- `StopClock()` — creation captures the current instant as `start` with an
empty `stops` list. -/
def make (now : ℤ) : StopClock :=
  { start := now, stops := [] }

/-- `reset()` — sets `start` to the current instant and empties `stops`. -/
def reset (_c : StopClock) (now : ℤ) : StopClock :=
  { start := now, stops := [] }

/-- JavaScript `label || null` on the stored annotation: an absent label or a
falsy one (the empty string) becomes `null`. -/
def jsLabelOrNull : Option String → Option String
  | none => none
  | some s => if s = "" then none else some s

/-- `stop(label)` — computes `now - last` where `last` is the last recorded
stop's timestamp, or `start` when no stop exists; pushes the absolute
timestamp `now` annotated with `label || null`; returns the computed delta. -/
def stop (c : StopClock) (label : Option String) (now : ℤ) : ℤ × StopClock :=
  let last : ℤ :=
    match c.stops.getLast? with
    | some e => e.time
    | none => c.start
  let time := now - last
  (time, { c with stops := c.stops ++ [{ time := now, label := jsLabelOrNull label }] })

/-- `time` getter — last recorded stop's timestamp (or `Date.now()` when no
stop exists) minus `start`. -/
def time (c : StopClock) (now : ℤ) : ℤ :=
  (match c.stops.getLast? with
   | some e => e.time
   | none => now) - c.start

/-- `timeSinceStart` getter — always `Date.now() - start`. -/
def timeSinceStart (c : StopClock) (now : ℤ) : ℤ :=
  now - c.start

/-- `timeSinceLastStop` getter.  The source tests `this.stops.length` and
returns `this.time` when stops exist; otherwise it computes
`Date.now() - this.stops[this.stops.length - 1]`, a subtraction against a
missing element, which is `NaN` — modelled as `none`. -/
def timeSinceLastStop (c : StopClock) (now : ℤ) : Option ℤ :=
  if c.stops.length ≠ 0 then
    some (c.time now)
  else
    none

/-- The match condition of `findStop`'s reduce: the entry must carry a truthy
label (`c.label &&`) that is loosely equal to the query.  A string is never
loosely equal to `null`/`undefined`, so a `none` query matches nothing. -/
def matchesLabel (label : Option String) (e : StopEvent) : Bool :=
  match e.label with
  | some s => decide (s ≠ "") && decide (label = some s)
  | none => false

/-- The record `findStop` builds for a match: the stop's numeric value, the
clock's `start`, the stop's label and its index. -/
structure FoundStop where
  stop : ℤ
  start : ℤ
  label : String
  index : ℕ
deriving DecidableEq, Repr

/-- The reduce of `findStop`: the first matching entry (earlier matches
short-circuit later ones) is turned into a `FoundStop`. -/
def findStopAux (start : ℤ) (label : Option String) :
    List StopEvent → ℕ → Option FoundStop
  | [], _ => none
  | e :: rest, i =>
    if matchesLabel label e then
      some { stop := e.time, start := start,
             label := e.label.getD "", index := i }
    else
      findStopAux start label rest (i + 1)

/-- `findStop(label)` — first stop whose truthy label equals `label`,
augmented with the clock's `start` and the sequence index; `none` when no
entry matches. -/
def findStop (c : StopClock) (label : Option String) : Option FoundStop :=
  findStopAux c.start label c.stops 0

/-- One element of `summary.stops`: raw timestamp, delta from the previous
entry, total since `start`, and label. -/
structure StopSummaryEntry where
  time : ℤ
  delta : ℤ
  total : ℤ
  label : Option String
deriving DecidableEq, Repr

/-- The `summary` snapshot.  `stop` is the last entry of `stops` (the elements
are `Object`-wrapped numbers, hence always truthy in the source's
`|| Infinity`), so only an empty `stops` yields the `Infinity` sentinel —
modelled as `none`. -/
structure StopSummary where
  start : ℤ
  stops : List StopSummaryEntry
  stop : Option ℤ
  total : ℤ
  sinceStart : ℤ
deriving DecidableEq, Repr

/-- The map of `summary` over `stops`: `delta` is `0` for the first entry and
the difference of raw timestamps afterwards; `total` is timestamp minus
`start`.  `prev` carries the previous entry's timestamp. -/
def summaryStops (start : ℤ) : List StopEvent → Option ℤ → List StopSummaryEntry
  | [], _ => []
  | e :: rest, prev =>
    { time := e.time,
      delta := match prev with
               | none => 0
               | some p => e.time - p,
      total := e.time - start,
      label := e.label } :: summaryStops start rest (some e.time)

/-- `summary` getter — start, derived per-stop entries, last raw stop (or the
`Infinity` sentinel), `total = time` and `sinceStart = timeSinceStart`. -/
def summary (c : StopClock) (now : ℤ) : StopSummary :=
  { start := c.start,
    stops := summaryStops c.start c.stops none,
    stop := c.stops.getLast?.map StopEvent.time,
    total := c.time now,
    sinceStart := c.timeSinceStart now }

end StopClock

/-! ## Stepper (src/Stepper.js) -/

/-- A registered step: a name, the guard (`proceed`) and the work function
(`step`).  Both receive the engine's bound arguments and may return a value or
throw one.  (`this`-rebinding via `altContext` only affects the invocation
owner, not the data flow, and is not modelled.) -/
structure Step where
  name : String
  proceed : List JSVal → JSResult JSVal
  step : List JSVal → JSResult JSVal

/-- `Stepper.Step(name, stepFunction)` — the factory's defaults: `proceed`
always returns `true`, a missing `stepFunction` becomes a no-op returning
`undefined`.  (`Object.assign` merging of extra fields is modelled by callers
overriding record fields directly.) -/
def Step.make (name : String) (stepFunction : Option (List JSVal → JSResult JSVal)) : Step :=
  { name := name,
    proceed := fun _ => .ok (.bool true),
    step := stepFunction.getD (fun _ => .ok .undef) }

/-- `Stepper.Dataset(step, boundArgs)` — per-step, per-run record: a fresh
StopClock, `error` initialised to `null`, the back-reference to the step and
the (in the run loop never supplied, hence `undefined`) `boundArgs` field. -/
structure Dataset where
  stopclock : StopClock
  error : JSVal
  step : Step
  boundArgs : JSVal

/-- Construction of a `Dataset`, capturing the current instant for its
StopClock. -/
def Dataset.make (step : Step) (now : ℤ) : Dataset :=
  { stopclock := StopClock.make now,
    error := .null,
    step := step,
    boundArgs := .undef }

/-- A lifecycle emission of the run (`STEP_STARTED` / `STEP_COMPLETED` /
`STEP_FAILED`), carrying the snapshot of the dataset at emission time. -/
inductive RunEvent where
  | started (step : Step) (ds : Dataset)
  | completed (step : Step) (ds : Dataset)
  | failed (error : JSVal) (step : Step) (ds : Dataset)

/-- The observable shape of a run event, forgetting the attached `Step` and
`Dataset` payloads (used to express that the sequence of emissions does not
depend on a skipped work function). -/
inductive RunEventKind where
  | started
  | completed
  | failed (error : JSVal)

/-- Projection of a run event to its kind. -/
def RunEvent.kind : RunEvent → RunEventKind
  | .started _ _ => .started
  | .completed _ _ => .completed
  | .failed e _ _ => .failed e

/-- The engine state: the symbol-keyed fields `OARGS`, `BARGS`, `SDATA`,
`STEPS`, `TTIME` and the public `hasStepped` flag. -/
structure Stepper where
  oargs : List JSVal
  bargs : List JSVal
  sdata : List Dataset
  steps : List Step
  ttime : StopClock
  hasStepped : Bool

namespace Stepper

/-- The constructor: `null`/`undefined` context becomes `[]`; a non-array
context value is wrapped into a one-element array; an array is kept as-is.
`OARGS` keeps the resulting array, `BARGS` is its working copy
(`[].concat(args)`), `SDATA` starts empty, `STEPS` copies the varargs, and a
fresh run-level StopClock is created; `hasStepped` starts `false`. -/
def make (now : ℤ) (stepArgs : JSVal) (steps : List Step) : Stepper :=
  let args : JSVal :=
    match stepArgs with
    | .null => .arr []
    | .undef => .arr []
    | v => v
  let argsList : List JSVal :=
    match args with
    | .arr l => l
    | v => [v]
  { oargs := argsList,
    bargs := argsList,
    sdata := [],
    steps := steps,
    ttime := StopClock.make now,
    hasStepped := false }

/-- `reset()` — clears the `hasStepped` flag, restores the working copy of the
bound arguments from the originals and drops the accumulated datasets.  The
registered steps and the run-level clock are untouched. -/
def reset (s : Stepper) : Stepper :=
  { s with hasStepped := false, bargs := s.oargs, sdata := [] }

/-- One iteration of the run loop's `try/catch` around a single step: build a
fresh `Dataset`, emit `STEP_STARTED`, reset the step's clock, evaluate the
guard, record a stop, run the work function when the guard result is truthy,
record a second stop and emit `STEP_COMPLETED` — or, when the guard or the
work throws, record one stop in the `catch`, attach the thrown value and emit
`STEP_FAILED`.  Every path yields the dataset to be pushed.  `τ`/`c` thread
the `Date.now()` oracle. -/
def runStep (τ : ℕ → ℤ) (bargs : List JSVal) (st : Step) (c : ℕ) :
    Dataset × List RunEvent × ℕ :=
  let ds0 := Dataset.make st (τ c)
  let ds1 : Dataset := { ds0 with stopclock := ds0.stopclock.reset (τ (c + 1)) }
  match st.proceed bargs with
  | .thrown e =>
    let ds2 : Dataset :=
      { ds1 with stopclock := (ds1.stopclock.stop none (τ (c + 2))).2, error := e }
    (ds2, [.started st ds0, .failed e st ds2], c + 3)
  | .ok g =>
    let ds2 : Dataset := { ds1 with stopclock := (ds1.stopclock.stop none (τ (c + 2))).2 }
    if g.truthy then
      match st.step bargs with
      | .thrown e =>
        let ds3 : Dataset :=
          { ds2 with stopclock := (ds2.stopclock.stop none (τ (c + 3))).2, error := e }
        (ds3, [.started st ds0, .failed e st ds3], c + 4)
      | .ok _ =>
        let ds3 : Dataset := { ds2 with stopclock := (ds2.stopclock.stop none (τ (c + 3))).2 }
        (ds3, [.started st ds0, .completed st ds3], c + 4)
    else
      let ds3 : Dataset := { ds2 with stopclock := (ds2.stopclock.stop none (τ (c + 3))).2 }
      (ds3, [.started st ds0, .completed st ds3], c + 4)

/-- The `for (let step of this[STEPS])` loop: process each step in
registration order, pushing its dataset and recording a stop on the run-level
clock after every iteration. -/
def runSteps (τ : ℕ → ℤ) (bargs : List JSVal) :
    List Step → ℕ → StopClock → List Dataset × List RunEvent × StopClock × ℕ
  | [], c, tt => ([], [], tt, c)
  | st :: rest, c, tt =>
    let r := runStep τ bargs st c
    let tt1 := (tt.stop none (τ r.2.2)).2
    let rec0 := runSteps τ bargs rest (r.2.2 + 1) tt1
    (r.1 :: rec0.1, r.2.1 ++ rec0.2.1, rec0.2.2)

/-- The `results` getter: `stepped`, the run-level clock's `summary` and
`time`, `hasErrors` (a reduce testing each dataset's error for truthiness),
`errors` (the truthy errors in order) and the accumulated datasets. -/
structure Results where
  stepped : Bool
  timing : StopClock.StopSummary
  totalTime : ℤ
  hasErrors : Bool
  errors : List JSVal
  data : List Dataset

/-- `results` — recomputable at any time; `now` is the instant its clock
queries observe. -/
def results (s : Stepper) (now : ℤ) : Results :=
  { stepped := s.hasStepped,
    timing := s.ttime.summary now,
    totalTime := s.ttime.time now,
    hasErrors := s.sdata.foldl
      (fun p c => if p then true else if c.error.truthy then true else false) false,
    errors := (s.sdata.map Dataset.error).foldl
      (fun p c => if c.truthy then p ++ [c] else p) [],
    data := s.sdata }

/-- `startSteppin(altContext)` — reset the run-level clock, run every step in
order appending each dataset to `SDATA`, record a final stop, set
`hasStepped` and return `this.results`.  The returned tuple is
(new engine state, returned `Results`, emitted events, next oracle index). -/
def startSteppin (s : Stepper) (τ : ℕ → ℤ) (c : ℕ) :
    Stepper × Results × List RunEvent × ℕ :=
  let tt0 := s.ttime.reset (τ c)
  let r := runSteps τ s.bargs s.steps (c + 1) tt0
  let tt1 := (r.2.2.1.stop none (τ r.2.2.2)).2
  let s1 : Stepper :=
    { s with ttime := tt1, sdata := s.sdata ++ r.1, hasStepped := true }
  (s1, s1.results (τ (r.2.2.2 + 1)), r.2.1, r.2.2.2 + 2)

end Stepper

/-! ## Specification-side characterizations -/

/-- The exception a single step's turn raises, if any: an exception of the
guard, or — when the guard result is truthy — an exception of the work
function.  This mirrors the `try` block of the run loop and is used to state
properties of `Stepper.runStep` / `Stepper.startSteppin`. -/
def stepOutcome (bargs : List JSVal) (st : Step) : Option JSVal :=
  match st.proceed bargs with
  | .thrown e => some e
  | .ok g =>
    if g.truthy then
      match st.step bargs with
      | .thrown e => some e
      | .ok _ => none
    else none

/-! ## Helper lemmas: StopClock -/

namespace StopClock

theorem matchesLabel_none (e : StopEvent) : matchesLabel none e = false := by
  unfold matchesLabel
  cases e.label with
  | none => rfl
  | some s => simp

theorem matchesLabel_unlabeled (l : Option String) (e : StopEvent)
    (h : e.label = none) : matchesLabel l e = false := by
  unfold matchesLabel
  rw [h]

theorem findStopAux_none (start : ℤ) (l : Option String) :
    ∀ (es : List StopEvent) (i : ℕ),
      (∀ e ∈ es, matchesLabel l e = false) → findStopAux start l es i = none := by
  intro es
  induction es with
  | nil => intro i _; rfl
  | cons a rest ih =>
    intro i h
    unfold findStopAux
    rw [h a (by simp)]
    exact ih (i + 1) (fun e he => h e (by simp [he]))

theorem findStopAux_some (start : ℤ) (l : Option String) :
    ∀ (es : List StopEvent) (i : ℕ) (r : FoundStop),
      findStopAux start l es i = some r →
      ∃ j e, es[j]? = some e ∧ r.index = i + j ∧ matchesLabel l e = true ∧
        r.stop = e.time ∧ r.start = start ∧ e.label = some r.label ∧
        ∀ k e', k < j → es[k]? = some e' → matchesLabel l e' = false := by
  intro es
  induction es with
  | nil => intro i r h; exact absurd h (by simp [findStopAux])
  | cons a rest ih =>
    intro i r h
    unfold findStopAux at h
    by_cases hm : matchesLabel l a = true
    · rw [if_pos hm] at h
      refine ⟨0, a, by simp, ?_, hm, ?_, ?_, ?_, ?_⟩
      · cases h; simp
      · cases h; rfl
      · cases h; rfl
      · cases h
        unfold matchesLabel at hm
        cases hl : a.label with
        | none => rw [hl] at hm; exact absurd hm (by simp)
        | some s => simp [hl]
      · intro k e' hk
        omega
    · rw [if_neg hm] at h
      obtain ⟨j, e, hje, hidx, hmm, hstop, hstart, hlab, hmin⟩ := ih (i + 1) r h
      refine ⟨j + 1, e, by simpa using hje, by omega, hmm, hstop, hstart, hlab, ?_⟩
      intro k e' hk hke
      cases k with
      | zero =>
        simp at hke
        rw [← hke]
        exact eq_false_of_ne_true hm
      | succ k' =>
        exact hmin k' e' (by omega) (by simpa using hke)

theorem summaryStops_length (start : ℤ) :
    ∀ (es : List StopEvent) (prev : Option ℤ),
      (summaryStops start es prev).length = es.length := by
  intro es
  induction es with
  | nil => intro prev; rfl
  | cons a rest ih => intro prev; simpa [summaryStops] using ih (some a.time)

theorem summaryStops_getElem (start : ℤ) :
    ∀ (es : List StopEvent) (prev : Option ℤ) (i : ℕ) (e : StopEvent),
      es[i]? = some e →
      (summaryStops start es prev)[i]? =
        some { time := e.time,
               delta := match (if i = 0 then prev else (es[i-1]?).map StopEvent.time) with
                        | none => 0
                        | some p => e.time - p,
               total := e.time - start,
               label := e.label } := by
  intro es
  induction es with
  | nil => intro prev i e h; simp at h
  | cons a rest ih =>
    intro prev i e h
    cases i with
    | zero =>
      simp at h
      subst h
      simp [summaryStops]
    | succ j =>
      have h' : rest[j]? = some e := by simpa using h
      have hrec := ih (some a.time) j e h'
      show (summaryStops start (a :: rest) prev)[j+1]? = _
      unfold summaryStops
      rw [List.getElem?_cons_succ, hrec]
      congr 2
      cases j with
      | zero => simp
      | succ k => simp

end StopClock

/-! ## Claims about StopClock -/

/-- C3 counterexample: on a clock started at 100, `stop` at instant 150
returns the delta 50 but the appended event records the absolute timestamp
150, not the cumulative elapsed-since-start value 50 claimed by the spec. -/
theorem stopclock_stop_event_not_cumulative :
    ((StopClock.make 100).stop (some "lap") 150).1 = 50 ∧
    ((StopClock.make 100).stop (some "lap") 150).2.stops =
      [{ time := 150, label := some "lap" }] ∧
    ¬ (((StopClock.make 100).stop (some "lap") 150).2.stops =
      [{ time := 50, label := some "lap" }]) := by
  refine ⟨rfl, rfl, ?_⟩
  decide

/-- C3 (amended): `stop(label?)` returns the incremental delta — elapsed
milliseconds between now and the most recent prior event (the last entry of
`stops`, or `start` if `stops` is empty) — while the stop event it appends
records the absolute current timestamp (from which elapsed-since-start is
obtained by subtracting `start`) together with the given label (null when
absent or falsy). -/
theorem stopclock_stop_delta_and_event (c : StopClock) (label : Option String) (now : ℤ) :
    (c.stops = [] → (c.stop label now).1 = now - c.start) ∧
    (∀ e, c.stops.getLast? = some e → (c.stop label now).1 = now - e.time) ∧
    ((c.stop label now).2.stops =
      c.stops ++ [{ time := now, label := StopClock.jsLabelOrNull label }]) ∧
    ((c.stop label now).2.start = c.start) := by
  refine ⟨?_, ?_, rfl, rfl⟩
  · intro h
    simp [StopClock.stop, h]
  · intro e he
    simp [StopClock.stop, he]

/-- C3 witness: the delta computation at concrete clocks, with an empty and a
non-empty stop list. -/
theorem stopclock_stop_delta_witness :
    ((StopClock.make 7).stop none 19).1 = 19 - 7 ∧
    ((((StopClock.make 7).stop none 19).2).stop (some "a") 30).1 = 30 - 19 :=
  ⟨(stopclock_stop_delta_and_event (StopClock.make 7) none 19).1 rfl,
   (stopclock_stop_delta_and_event (((StopClock.make 7).stop none 19).2)
      (some "a") 30).2.1 { time := 19, label := none } rfl⟩

/-- C4 counterexample: on a clock started at 100 with one stop recorded at
instant 150, the summary's `stop` field is the raw timestamp 150 while the
last stop's cumulative value (its `total`) is 50 — the spec's claim that
`stop` holds the cumulative value fails. -/
theorem stopclock_summary_stop_not_cumulative :
    (((StopClock.make 100).stop none 150).2.summary 160).stop = some 150 ∧
    ((((StopClock.make 100).stop none 150).2.summary 160).stops.map
        StopClock.StopSummaryEntry.total = [50]) ∧
    ¬ ((some (150 : ℤ)) = some (50 : ℤ)) := by
  refine ⟨rfl, rfl, ?_⟩
  decide

/-- C4 (amended): the summary's per-stop sequence has `delta` equal to the
difference from the previous stop's cumulative time (0 for the first stop)
and `total` equal to that stop's elapsed-since-start; its `stop` field is the
last stop's recorded absolute timestamp (or the infinite sentinel, modelled
`none`, when no stops exist); its `total` equals the `time` query and its
`sinceStart` equals the `timeSinceStart` query. -/
theorem stopclock_summary_fields (c : StopClock) (now : ℤ) :
    ((c.summary now).start = c.start) ∧
    ((c.summary now).stops.length = c.stops.length) ∧
    (∀ (i : ℕ) (e : StopEvent), c.stops[i]? = some e →
      ∃ se : StopClock.StopSummaryEntry, (c.summary now).stops[i]? = some se ∧
        se.time = e.time ∧ se.total = e.time - c.start ∧ se.label = e.label) ∧
    (∀ e : StopEvent, c.stops[0]? = some e →
      ∃ se : StopClock.StopSummaryEntry, (c.summary now).stops[0]? = some se ∧
        se.delta = 0) ∧
    (∀ (i : ℕ) (a b : StopEvent), c.stops[i]? = some a → c.stops[i+1]? = some b →
      ∃ se : StopClock.StopSummaryEntry, (c.summary now).stops[i+1]? = some se ∧
        se.delta = (b.time - c.start) - (a.time - c.start)) ∧
    ((c.summary now).stop = c.stops.getLast?.map StopEvent.time) ∧
    ((c.summary now).total = c.time now) ∧
    ((c.summary now).sinceStart = c.timeSinceStart now) := by
  refine ⟨rfl, ?_, ?_, ?_, ?_, rfl, rfl, rfl⟩
  · exact StopClock.summaryStops_length c.start c.stops none
  · intro i e h
    exact ⟨_, StopClock.summaryStops_getElem c.start c.stops none i e h, rfl, rfl, rfl⟩
  · intro e h
    refine ⟨_, StopClock.summaryStops_getElem c.start c.stops none 0 e h, ?_⟩
    simp
  · intro i a b ha hb
    refine ⟨_, StopClock.summaryStops_getElem c.start c.stops none (i+1) b hb, ?_⟩
    simp [ha]

/-- C4 witness: the summary of a concrete clock (start 10, stops at 13 and
18) has first delta 0, second delta 5 = (18-10)-(13-10), totals 3 and 8, and
`stop` field 18. -/
theorem stopclock_summary_fields_witness :
    (∃ se, (((((StopClock.make 10).stop none 13).2).stop (some "b") 18).2.summary 20).stops[0]? =
        some se ∧ se.delta = 0) ∧
    (∃ se, (((((StopClock.make 10).stop none 13).2).stop (some "b") 18).2.summary 20).stops[1]? =
        some se ∧ se.delta = ((18 : ℤ) - 10) - ((13 : ℤ) - 10)) ∧
    (∃ se, (((((StopClock.make 10).stop none 13).2).stop (some "b") 18).2.summary 20).stops[1]? =
        some se ∧ se.time = 18 ∧ se.total = (18 : ℤ) - 10 ∧ se.label = some "b") :=
  ⟨(stopclock_summary_fields (((((StopClock.make 10).stop none 13).2).stop (some "b") 18).2) 20).2.2.2.1
      { time := 13, label := none } rfl,
   (stopclock_summary_fields (((((StopClock.make 10).stop none 13).2).stop (some "b") 18).2) 20).2.2.2.2.1
      0 { time := 13, label := none } { time := 18, label := some "b" } rfl rfl,
   (stopclock_summary_fields (((((StopClock.make 10).stop none 13).2).stop (some "b") 18).2) 20).2.2.1
      1 { time := 18, label := some "b" } rfl⟩

/-- C9 (confirmed): `timeSinceLastStop` is not the time since the last stop —
on an empty `stops` list it subtracts a missing last element and yields the
non-numeric result (`NaN`, modelled `none`); with at least one stop it
returns exactly the `time` query, i.e. the last stop's timestamp minus
`start`, not the elapsed time since that stop. -/
theorem stopclock_timeSinceLastStop_behavior (c : StopClock) (now : ℤ) :
    (c.stops = [] → c.timeSinceLastStop now = none) ∧
    (∀ e, c.stops.getLast? = some e →
      c.timeSinceLastStop now = some (e.time - c.start) ∧
      c.timeSinceLastStop now = some (c.time now)) := by
  constructor
  · intro h
    simp [StopClock.timeSinceLastStop, h]
  · intro e he
    have hne : c.stops.length ≠ 0 := by
      intro hlen
      rw [List.length_eq_zero.mp hlen] at he
      simp at he
    constructor
    · simp [StopClock.timeSinceLastStop, StopClock.time, hne, he]
    · simp [StopClock.timeSinceLastStop, hne]

/-- C9 witness: a fresh clock yields the non-numeric result; a clock started
at 3 with a stop recorded at 10 yields `some (10 - 3)` at any later query
instant. -/
theorem stopclock_timeSinceLastStop_witness :
    (StopClock.make 5).timeSinceLastStop 42 = none ∧
    ((StopClock.make 3).stop none 10).2.timeSinceLastStop 99 = some (10 - 3) :=
  ⟨(stopclock_timeSinceLastStop_behavior (StopClock.make 5) 42).1 rfl,
   ((stopclock_timeSinceLastStop_behavior (((StopClock.make 3).stop none 10).2) 99).2
      { time := 10, label := none } rfl).1⟩

/-- C10 (confirmed): `findStop` only ever matches stops carrying a truthy
label — a stop recorded with no label gets label null and is never returned;
`findStop(null)`/`findStop(undefined)` (query `none`) return nothing even
when unlabeled stops exist; a returned match is the first matching entry in
sequence order, carries the query label and the clock's `start`. -/
theorem stopclock_findStop_truthy_label (c : StopClock) (now : ℤ) (l : Option String) :
    (((c.stop none now).2.stops.getLast?).map StopEvent.label = some none) ∧
    ((∀ e ∈ c.stops, e.label = none) → c.findStop l = none) ∧
    (c.findStop none = none) ∧
    (∀ r, c.findStop l = some r →
      ∃ e, c.stops[r.index]? = some e ∧ e.label = some r.label ∧ r.label ≠ "" ∧
        l = some r.label ∧ r.stop = e.time ∧ r.start = c.start ∧
        ∀ k e', k < r.index → c.stops[k]? = some e' →
          StopClock.matchesLabel l e' = false) := by
  refine ⟨?_, ?_, ?_, ?_⟩
  · simp [StopClock.stop, StopClock.jsLabelOrNull]
  · intro h
    exact StopClock.findStopAux_none c.start l c.stops 0
      (fun e he => StopClock.matchesLabel_unlabeled l e (h e he))
  · exact StopClock.findStopAux_none c.start none c.stops 0
      (fun e _ => StopClock.matchesLabel_none e)
  · intro r hr
    obtain ⟨j, e, hje, hidx, hm, hstop, hstart, hlab, hmin⟩ :=
      StopClock.findStopAux_some c.start l c.stops 0 r hr
    have hj : r.index = j := by omega
    subst hj
    refine ⟨e, hje, hlab, ?_, ?_, hstop, hstart, fun k e' hk hke => hmin k e' hk hke⟩
    · unfold StopClock.matchesLabel at hm
      rw [hlab] at hm
      simp at hm
      exact hm.1
    · unfold StopClock.matchesLabel at hm
      rw [hlab] at hm
      simp at hm
      exact hm.2

/-- C10 witness: on a clock with an unlabeled stop at 5 and a stop labeled
"a" at 9, a `none` query finds nothing, and the query "a" returns the entry
at index 1 with the clock's start, skipping the unlabeled entry. -/
theorem stopclock_findStop_truthy_label_witness :
    ((((StopClock.make 0).stop none 5).2.stop (some "a") 9).2.findStop none = none) ∧
    (∃ e, ((((StopClock.make 0).stop none 5).2.stop (some "a") 9).2.stops[(1 : ℕ)]? = some e ∧
      e.label = some "a" ∧ ("a" : String) ≠ "" ∧
      (some "a" : Option String) = some "a" ∧ (9 : ℤ) = e.time ∧ (0 : ℤ) =
        ((((StopClock.make 0).stop none 5).2.stop (some "a") 9).2).start ∧
      ∀ k e', k < 1 →
        ((((StopClock.make 0).stop none 5).2.stop (some "a") 9).2.stops[k]? = some e' →
        StopClock.matchesLabel (some "a") e' = false))) :=
  ⟨(stopclock_findStop_truthy_label ((((StopClock.make 0).stop none 5).2.stop (some "a") 9).2)
      0 none).2.2.1,
   (stopclock_findStop_truthy_label ((((StopClock.make 0).stop none 5).2.stop (some "a") 9).2)
      0 (some "a")).2.2.2 { stop := 9, start := 0, label := "a", index := 1 } rfl⟩

/-! ## Helper lemmas: Stepper -/

namespace Stepper

theorem runStep_spec (τ : ℕ → ℤ) (bargs : List JSVal) (st : Step) (c : ℕ) :
    (runStep τ bargs st c).1.step = st ∧
    (runStep τ bargs st c).1.error = (stepOutcome bargs st).getD .null ∧
    ((runStep τ bargs st c).2.1.map RunEvent.kind =
      match stepOutcome bargs st with
      | some e => [.started, .failed e]
      | none => [.started, .completed]) ∧
    (∀ e : JSVal, stepOutcome bargs st = some e →
      RunEvent.failed e st (runStep τ bargs st c).1 ∈ (runStep τ bargs st c).2.1) := by
  unfold runStep stepOutcome
  cases hp : st.proceed bargs with
  | thrown e => simp [RunEvent.kind, Dataset.make]
  | ok g =>
    by_cases hg : g.truthy
    · cases hw : st.step bargs with
      | thrown e => simp [hg, hw, RunEvent.kind, Dataset.make]
      | ok v => simp [hg, hw, RunEvent.kind, Dataset.make]
    · simp [hg, RunEvent.kind, Dataset.make]

theorem runSteps_length (τ : ℕ → ℤ) (bargs : List JSVal) :
    ∀ (l : List Step) (c : ℕ) (tt : StopClock),
      (runSteps τ bargs l c tt).1.length = l.length := by
  intro l
  induction l with
  | nil => intro c tt; rfl
  | cons st rest ih => intro c tt; simpa [runSteps] using ih _ _

theorem runSteps_map_step (τ : ℕ → ℤ) (bargs : List JSVal) :
    ∀ (l : List Step) (c : ℕ) (tt : StopClock),
      ((runSteps τ bargs l c tt).1).map Dataset.step = l := by
  intro l
  induction l with
  | nil => intro c tt; rfl
  | cons st rest ih =>
    intro c tt
    simp only [runSteps, List.map_cons]
    rw [(runStep_spec τ bargs st c).1, ih _ _]

theorem runSteps_get (τ : ℕ → ℤ) (bargs : List JSVal) :
    ∀ (l : List Step) (c : ℕ) (tt : StopClock) (i : ℕ) (st : Step),
      l[i]? = some st →
      ∃ d : Dataset, (runSteps τ bargs l c tt).1[i]? = some d ∧ d.step = st ∧
        d.error = (stepOutcome bargs st).getD .null ∧
        (∀ e : JSVal, stepOutcome bargs st = some e →
          RunEvent.failed e st d ∈ (runSteps τ bargs l c tt).2.1) := by
  intro l
  induction l with
  | nil => intro c tt i st h; simp at h
  | cons a rest ih =>
    intro c tt i st h
    cases i with
    | zero =>
      simp at h
      subst h
      obtain ⟨h1, h2, _h3, h4⟩ := runStep_spec τ bargs a c
      refine ⟨(runStep τ bargs a c).1, ?_, h1, h2, ?_⟩
      · simp [runSteps]
      · intro e he
        simp only [runSteps, List.mem_append]
        exact Or.inl (h4 e he)
    | succ j =>
      have h' : rest[j]? = some st := by simpa using h
      obtain ⟨d, hd, hstep, herr, hmem⟩ := ih _ _ j st h'
      refine ⟨d, ?_, hstep, herr, ?_⟩
      · simpa [runSteps] using hd
      · intro e he
        simp only [runSteps, List.mem_append]
        exact Or.inr (hmem e he)

end Stepper

/-! ## Concrete sample objects used by witnesses and counterexamples -/

/-- A concrete `Date.now()` oracle for evaluations: the k-th clock read
observes instant k. -/
def clk0 : ℕ → ℤ := fun k => (k : ℤ)

/-- A step that always proceeds and succeeds. -/
def okStepA : Step :=
  { name := "ok", proceed := fun _ => .ok (.bool true), step := fun _ => .ok .null }

/-- A step whose work throws a (truthy) string. -/
def throwStepB : Step :=
  { name := "boom", proceed := fun _ => .ok (.bool true),
    step := fun _ => .thrown (.str "bad") }

/-- A step whose work throws the falsy value `false`. -/
def falsyThrowStep : Step :=
  { name := "falsy", proceed := fun _ => .ok (.bool true),
    step := fun _ => .thrown (.bool false) }

/-- A step whose guard returns `false`; its work function would throw if it
were ever invoked. -/
def skipStep : Step :=
  { name := "skip", proceed := fun _ => .ok (.bool false),
    step := fun _ => .thrown (.str "never") }

/-- A two-step engine: a succeeding step followed by a throwing one. -/
def sampleStepper : Stepper := Stepper.make 0 .null [okStepA, throwStepB]

/-- A one-step engine whose single step throws `false`. -/
def falsyStepper : Stepper := Stepper.make 0 .null [falsyThrowStep]

/-- A one-step engine whose single step is guarded off. -/
def skipStepper : Stepper := Stepper.make 0 .null [skipStep]

/-! ## Claims about the Stepper engine -/

/-- C1 (confirmed): a run over N registered steps processes every step
exactly once in registration order and appends exactly N Datasets to the
accumulated list regardless of failures; an exception raised by a step's
guard or work (`stepOutcome`) is caught, attached to that step's Dataset,
surfaced via a `STEP_FAILED` emission, the Dataset is still appended and
subsequent steps still execute.  `startSteppin` is a total function into
`Results` — the formal counterpart of "run itself never raises due to step
failures". -/
theorem stepper_run_processes_every_step (s : Stepper) (τ : ℕ → ℤ) (c : ℕ) :
    (((s.startSteppin τ c).2.1.data).length = s.sdata.length + s.steps.length) ∧
    ((((s.startSteppin τ c).2.1.data).drop s.sdata.length).map Dataset.step = s.steps) ∧
    (∀ (i : ℕ) (st : Step), s.steps[i]? = some st →
      ∃ d : Dataset, (((s.startSteppin τ c).2.1.data).drop s.sdata.length)[i]? = some d ∧
        d.step = st ∧
        d.error = (stepOutcome s.bargs st).getD .null ∧
        (∀ e : JSVal, stepOutcome s.bargs st = some e →
          RunEvent.failed e st d ∈ (s.startSteppin τ c).2.2.1)) := by
  have hdata : (s.startSteppin τ c).2.1.data =
      s.sdata ++ (Stepper.runSteps τ s.bargs s.steps (c+1) (s.ttime.reset (τ c))).1 := rfl
  have hev : (s.startSteppin τ c).2.2.1 =
      (Stepper.runSteps τ s.bargs s.steps (c+1) (s.ttime.reset (τ c))).2.1 := rfl
  refine ⟨?_, ?_, ?_⟩
  · rw [hdata]
    simp [Stepper.runSteps_length]
  · rw [hdata, List.drop_left]
    exact Stepper.runSteps_map_step τ s.bargs s.steps _ _
  · intro i st hst
    rw [hdata, List.drop_left, hev]
    exact Stepper.runSteps_get τ s.bargs s.steps _ _ i st hst

/-- C1 witness: in the concrete two-step engine, the second (throwing) step's
Dataset sits at index 1 of the produced data, carries the thrown error and
has a matching `STEP_FAILED` emission. -/
theorem stepper_run_processes_every_step_witness :
    ∃ d : Dataset,
      (((sampleStepper.startSteppin clk0 0).2.1.data).drop
        sampleStepper.sdata.length)[1]? = some d ∧
      d.step = throwStepB ∧
      d.error = (stepOutcome sampleStepper.bargs throwStepB).getD .null ∧
      (∀ e : JSVal, stepOutcome sampleStepper.bargs throwStepB = some e →
        RunEvent.failed e throwStepB d ∈ (sampleStepper.startSteppin clk0 0).2.2.1) :=
  (stepper_run_processes_every_step sampleStepper clk0 0).2.2 1 throwStepB rfl

/-- The `hasErrors` reduce of `results` tests each dataset's error for
truthiness, short-circuiting once true. -/
theorem foldl_hasErrors (l : List Dataset) : ∀ b : Bool,
    l.foldl (fun p c => if p then true else if c.error.truthy then true else false) b =
    (b || l.any (fun d => d.error.truthy)) := by
  induction l with
  | nil => intro b; simp
  | cons a rest ih =>
    intro b
    rw [List.foldl_cons, ih]
    cases b <;> cases h : a.error.truthy <;> simp [h]

/-- The `errors` reduce of `results` keeps exactly the truthy errors, in
order, appending to the accumulator. -/
theorem foldl_errors (l : List JSVal) : ∀ acc : List JSVal,
    l.foldl (fun p c => if c.truthy then p ++ [c] else p) acc =
    acc ++ l.filter JSVal.truthy := by
  induction l with
  | nil => intro acc; simp
  | cons a rest ih =>
    intro acc
    rw [List.foldl_cons, ih]
    cases h : a.truthy <;> simp [List.filter_cons, h]

/-- C2 counterexample: when the single step throws the falsy value `false`,
its Dataset carries the non-null error `false`, yet `hasErrors` is `false`
and `errors` is empty — refuting "hasErrors = true exactly when some Dataset
carries a non-null error" and "errors contains exactly the thrown error for
every failing step". -/
theorem results_falsy_error_counterexample :
    ((falsyStepper.startSteppin clk0 0).2.1.hasErrors = false) ∧
    (((falsyStepper.startSteppin clk0 0).2.1.data).map Dataset.error = [.bool false]) ∧
    ((falsyStepper.startSteppin clk0 0).2.1.errors = []) ∧
    (JSVal.bool false ≠ JSVal.null) :=
  ⟨rfl, rfl, rfl, fun h => JSVal.noConfusion h⟩

/-- C2 (amended): `hasErrors` is true exactly when some Dataset of the run
carries a truthy error, and `errors` is the ordered sequence of the truthy
errors, in step order; a step that throws a falsy value (`false`, `0`, `""`
or `null`) has the value recorded on its Dataset but is omitted from
`errors` and does not set `hasErrors`. -/
theorem results_errors_are_truthy_errors (s : Stepper) (now : ℤ) :
    ((s.results now).hasErrors = s.sdata.any (fun d => d.error.truthy)) ∧
    ((s.results now).hasErrors = true ↔ ∃ d ∈ s.sdata, d.error.truthy = true) ∧
    ((s.results now).errors = (s.sdata.map Dataset.error).filter JSVal.truthy) := by
  have h1 : (s.results now).hasErrors = s.sdata.any (fun d => d.error.truthy) := by
    show s.sdata.foldl _ false = _
    rw [foldl_hasErrors]
    simp
  refine ⟨h1, ?_, ?_⟩
  · rw [h1]
    simp [List.any_eq_true]
  · show (s.sdata.map Dataset.error).foldl _ [] = _
    rw [foldl_errors]
    simp

/-- C5 (confirmed): a step whose guard returns a falsy value never has its
work function invoked — the outcome of its turn (error, step clock, emission
kinds, clock-oracle consumption) is the same for every work function — yet
the run still produces a Dataset for it with `error = null`, counted in the
Result's data sequence. -/
theorem guarded_step_never_runs_work (s : Stepper) (τ : ℕ → ℤ) (c : ℕ)
    (i : ℕ) (st : Step) (g : JSVal)
    (hst : s.steps[i]? = some st)
    (hguard : st.proceed s.bargs = .ok g)
    (hfalsy : g.truthy = false) :
    (∃ d : Dataset,
      (((s.startSteppin τ c).2.1.data).drop s.sdata.length)[i]? = some d ∧
      d.error = .null ∧ d.step = st) ∧
    (∀ (f₁ f₂ : List JSVal → JSResult JSVal) (c' : ℕ),
      (Stepper.runStep τ s.bargs { st with step := f₁ } c').1.error =
        (Stepper.runStep τ s.bargs { st with step := f₂ } c').1.error ∧
      (Stepper.runStep τ s.bargs { st with step := f₁ } c').1.stopclock =
        (Stepper.runStep τ s.bargs { st with step := f₂ } c').1.stopclock ∧
      ((Stepper.runStep τ s.bargs { st with step := f₁ } c').2.1.map RunEvent.kind =
        [.started, .completed]) ∧
      ((Stepper.runStep τ s.bargs { st with step := f₁ } c').2.2 =
        (Stepper.runStep τ s.bargs { st with step := f₂ } c').2.2)) := by
  have houtcome : stepOutcome s.bargs st = none := by
    unfold stepOutcome
    rw [hguard]
    simp [hfalsy]
  constructor
  · have hdata : (s.startSteppin τ c).2.1.data =
        s.sdata ++ (Stepper.runSteps τ s.bargs s.steps (c+1) (s.ttime.reset (τ c))).1 := rfl
    rw [hdata, List.drop_left]
    obtain ⟨d, hd, hstep, herr, _⟩ :=
      Stepper.runSteps_get τ s.bargs s.steps (c+1) (s.ttime.reset (τ c)) i st hst
    refine ⟨d, hd, ?_, hstep⟩
    rw [herr, houtcome]
    rfl
  · intro f₁ f₂ c'
    have hp₁ : ({ st with step := f₁ } : Step).proceed = st.proceed := rfl
    have hp₂ : ({ st with step := f₂ } : Step).proceed = st.proceed := rfl
    simp only [Stepper.runStep, hp₁, hp₂, hguard, hfalsy]
    simp [RunEvent.kind, Dataset.make]

/-- C5 witness: the guarded-off step of the concrete one-step engine yields a
Dataset at index 0 with `error = null`, and its turn is insensitive to the
work function. -/
theorem guarded_step_never_runs_work_witness :
    (∃ d : Dataset,
      (((skipStepper.startSteppin clk0 0).2.1.data).drop skipStepper.sdata.length)[0]? =
        some d ∧ d.error = .null ∧ d.step = skipStep) ∧
    (∀ (f₁ f₂ : List JSVal → JSResult JSVal) (c' : ℕ),
      (Stepper.runStep clk0 skipStepper.bargs { skipStep with step := f₁ } c').1.error =
        (Stepper.runStep clk0 skipStepper.bargs { skipStep with step := f₂ } c').1.error ∧
      (Stepper.runStep clk0 skipStepper.bargs { skipStep with step := f₁ } c').1.stopclock =
        (Stepper.runStep clk0 skipStepper.bargs { skipStep with step := f₂ } c').1.stopclock ∧
      ((Stepper.runStep clk0 skipStepper.bargs { skipStep with step := f₁ } c').2.1.map
        RunEvent.kind = [.started, .completed]) ∧
      ((Stepper.runStep clk0 skipStepper.bargs { skipStep with step := f₁ } c').2.2 =
        (Stepper.runStep clk0 skipStepper.bargs { skipStep with step := f₂ } c').2.2)) :=
  guarded_step_never_runs_work skipStepper clk0 0 0 skipStep (.bool false) rfl rfl rfl

/-- C6 (confirmed): `reset()` clears the `hasStepped` flag (so the `stepped`
query reports false), restores the working context from the originally
supplied one, empties the accumulated Dataset list and leaves the registered
Step list unchanged; a run right after `reset` produces exactly one Dataset
per registered step even if a prior run had left entries. -/
theorem stepper_reset_restores_initial (s : Stepper) (τ : ℕ → ℤ) (c : ℕ) (now : ℤ) :
    (s.reset.hasStepped = false) ∧
    ((s.reset.results now).stepped = false) ∧
    (s.reset.bargs = s.oargs) ∧
    (s.reset.sdata = []) ∧
    (s.reset.steps = s.steps) ∧
    ((s.reset.startSteppin τ c).2.1.data.length = s.steps.length) := by
  refine ⟨rfl, rfl, rfl, rfl, rfl, ?_⟩
  have hdata : (s.reset.startSteppin τ c).2.1.data =
      [] ++ (Stepper.runSteps τ s.reset.bargs s.reset.steps (c+1)
        (s.reset.ttime.reset (τ c))).1 := rfl
  rw [hdata]
  simp [Stepper.runSteps_length]
  rfl

/-- C7 (confirmed): construction with `null`/`undefined` context yields the
empty argument sequence; construction with a non-array value yields the
one-element sequence holding that value; construction with an array keeps it
as-is (as the working copy `bargs` alongside the retained `oargs`); in every
case `hasStepped` is initialised to `false` and the given steps are
registered. -/
theorem stepper_construction_wraps_context (now : ℤ) (v : JSVal) (l : List JSVal)
    (steps : List Step) :
    ((Stepper.make now .null steps).bargs = [] ∧ (Stepper.make now .null steps).oargs = []) ∧
    ((Stepper.make now .undef steps).bargs = [] ∧ (Stepper.make now .undef steps).oargs = []) ∧
    ((Stepper.make now (.arr l) steps).bargs = l ∧ (Stepper.make now (.arr l) steps).oargs = l) ∧
    (v.isArray = false → v ≠ .null → v ≠ .undef →
      (Stepper.make now v steps).bargs = [v] ∧ (Stepper.make now v steps).oargs = [v]) ∧
    ((Stepper.make now v steps).hasStepped = false) ∧
    ((Stepper.make now v steps).steps = steps) := by
  refine ⟨⟨rfl, rfl⟩, ⟨rfl, rfl⟩, ⟨rfl, rfl⟩, ?_, ?_, ?_⟩
  · intro hna hn hu
    cases v with
    | null => exact absurd rfl hn
    | undef => exact absurd rfl hu
    | arr m => simp [JSVal.isArray] at hna
    | bool b => exact ⟨rfl, rfl⟩
    | num n => exact ⟨rfl, rfl⟩
    | str t => exact ⟨rfl, rfl⟩
  · cases v <;> rfl
  · cases v <;> rfl

/-- C7 witness: constructing with the scalar 5 wraps it into a one-element
sequence. -/
theorem stepper_construction_wraps_context_witness :
    (Stepper.make 0 (.num 5) []).bargs = [.num 5] ∧
    (Stepper.make 0 (.num 5) []).oargs = [.num 5] :=
  (stepper_construction_wraps_context 0 (.num 5) [] []).2.2.2.1 rfl
    (fun h => JSVal.noConfusion h) (fun h => JSVal.noConfusion h)
